import Mathlib

/-!
Verification of the room-scoped publish/subscribe broadcast hub of
`brunoquindeler/rocketseat-go-react` (Go), shallowly embedded in Lean 4.

The embedding follows the Go source:
  * `internal/api` handler file (`apiHandler`, `notifyClients`,
    `handleSubscribe`, the CRUD handlers) — the `subscribers` field is a
    `map[string]map[*websocket.Conn]context.CancelFunc` guarded by a mutex;
  * `internal/api/utils.go` (`readRoom`, `readMessage`, `sendJSON`).

Modelling choices:
  * A `*websocket.Conn` is identified by a `ConnId := Nat`; each connection
    owns exactly one cancellation control, so "triggering `c`'s cancel"
    is recorded against the `ConnId` itself.
  * The Go `map[string]map[*websocket.Conn]context.CancelFunc` is embedded
    as an association list from room ids to lists of connection ids
    (Go map keys are unique, so well-formed registries have nodup keys and
    nodup per-room connection lists).
  * `encoding/json` marshalling of the event structs is embedded as a
    function into a JSON AST: struct fields in declaration order, honouring
    the `json:"..."` tags; the field tagged `json:"-"` (RoomID) is omitted.
  * Since the mutex serializes every registry access, the concurrent system
    is embedded as a labelled transition system whose atomic steps are the
    lock-guarded critical sections of the Go code.
-/

/-- A JSON value, the codomain of the embedded `encoding/json` marshalling. -/
inductive Json where
  | null : Json
  | str : String → Json
  | int : Int → Json
  | bool : Bool → Json
  | arr : List Json → Json
  | obj : List (String × Json) → Json

/-- Room identifiers are textual UUIDs used as registry keys (Go `string`). -/
abbrev RoomId := String

/-- A subscriber handle: one open websocket connection (`*websocket.Conn`),
identified by a number since the Go value is a pointer used only for
identity (map key) and writing. -/
abbrev ConnId := Nat

/-- `uuid.UUID` values reach the hub only through their textual form
(`rawRoomID` / `.String()`), so they are embedded as strings. -/
abbrev UUID := String

/-- The four `MessageKind` constants of the Go source (`type MessageKind
string`). -/
def MessageCreated : String := "message_created"

def MessageRactionIncreased : String := "message_reaction_increased"

def MessageRactionDecreased : String := "message_reaction_decreased"

def MessageAnswered : String := "message_answered"

/-- Go struct `MessagMessageCreated {ID string json:"id"; Message string
json:"message"}`. -/
structure MessagMessageCreated where
  id : String
  message : String
  deriving DecidableEq, Repr

/-- Go struct `MessageMessageReactionIncreased {ID string json:"id";
Count int64 json:"count"}`. -/
structure MessageMessageReactionIncreased where
  id : String
  count : Int
  deriving DecidableEq, Repr

/-- Go struct `MessageMessageReactionDecreased {ID string json:"id";
Count int64 json:"count"}`. -/
structure MessageMessageReactionDecreased where
  id : String
  count : Int
  deriving DecidableEq, Repr

/-- Go struct `MessageMessageAnswered {ID string json:"id"}`. -/
structure MessageMessageAnswered where
  id : String
  deriving DecidableEq, Repr

/-- The payloads that the four event producers place in the `Value any`
field of `Message`; no other value ever reaches `notifyClients`. -/
inductive MessageValue where
  | created : MessagMessageCreated → MessageValue
  | reactionIncreased : MessageMessageReactionIncreased → MessageValue
  | reactionDecreased : MessageMessageReactionDecreased → MessageValue
  | answered : MessageMessageAnswered → MessageValue
  deriving DecidableEq, Repr

/-- Go struct `Message {Kind MessageKind json:"kind"; Value any
json:"value"; RoomID string json:"-"}`. -/
structure Message where
  kind : String
  value : MessageValue
  roomID : RoomId
  deriving DecidableEq, Repr

/-- `encoding/json` marshalling of the four payload structs: fields in
declaration order, keys from the `json:"..."` tags. -/
def marshalValue : MessageValue → Json
  | .created p => .obj [("id", .str p.id), ("message", .str p.message)]
  | .reactionIncreased p => .obj [("id", .str p.id), ("count", .int p.count)]
  | .reactionDecreased p => .obj [("id", .str p.id), ("count", .int p.count)]
  | .answered p => .obj [("id", .str p.id)]

/-- `encoding/json` marshalling of `Message` (what `conn.WriteJSON(msg)`
serializes): `Kind` under key `"kind"`, `Value` under key `"value"`;
`RoomID` carries the tag `json:"-"` and is therefore omitted. -/
def marshalMessage (m : Message) : Json :=
  .obj [("kind", .str m.kind), ("value", marshalValue m.value)]

/-- Go's `int64` range, for the `Count int64` payload fields. -/
def Int64Range (n : Int) : Prop := -(2 ^ 63) ≤ n ∧ n < 2 ^ 63

instance (n : Int) : Decidable (Int64Range n) := by
  unfold Int64Range; infer_instance

/-! ## The subscriber registry

`apiHandler.subscribers : map[string]map[*websocket.Conn]context.CancelFunc`,
embedded as an association list keyed by room id.  The per-room Go map is
embedded as the list of its connection-id keys (each key's value is that
connection's cancellation control, recoverable from the `ConnId`). -/

/-- The registry: room id to set of registered connection ids. -/
abbrev Registry := List (RoomId × List ConnId)

namespace Registry

/-- Go map read `h.subscribers[room]`: `some conns` when the key is
present (`ok`), `none` otherwise. -/
def lookup : Registry → RoomId → Option (List ConnId)
  | [], _ => none
  | (r, conns) :: rest, room => if r = room then some conns else lookup rest room

/-- The connection ids registered for a room (empty when the room has no
entry). -/
def conns (reg : Registry) (room : RoomId) : List ConnId :=
  (reg.lookup room).getD []

/-- Go map assignment into the per-room map: `h.subscribers[room][c] =
cancel`.  Assigning an existing key overwrites (no duplicate), a new key is
added. -/
def insertConn (c : ConnId) (l : List ConnId) : List ConnId :=
  if c ∈ l then l else c :: l

/-- `handleSubscribe`'s registration critical section (source lines
143-149): create the room's inner map if absent, then insert the
connection. -/
def register (reg : Registry) (room : RoomId) (c : ConnId) : Registry :=
  match reg.lookup room with
  | none => (room, [c]) :: reg
  | some _ => reg.map fun p => if p.1 = room then (p.1, insertConn c p.2) else p

/-- `handleSubscribe`'s teardown critical section (source lines 153-155):
`delete(h.subscribers[rawRoomID], c)`.  Deleting from a `nil` map (room
entry absent) is a Go no-op, and so is deleting an absent key. -/
def deregister (reg : Registry) (room : RoomId) (c : ConnId) : Registry :=
  reg.map fun p => if p.1 = room then (p.1, p.2.erase c) else p

/-- Well-formedness enjoyed by every Go map: unique room keys and unique
connection keys per room. -/
def WF (reg : Registry) : Prop :=
  (reg.map Prod.fst).Nodup ∧ ∀ p ∈ reg, p.2.Nodup

end Registry

/-! ## The broadcast dispatcher (`notifyClients`) -/

/-- The observable outcome of one `notifyClients` call: which connections
were written to (`conn.WriteJSON(msg)` invoked), which writes failed
(logged, and that connection's cancellation control triggered), and how
many error log lines were emitted.  The function has no error channel:
the Go method has no return value. -/
structure DispatchResult where
  attempted : List ConnId
  failed : List ConnId
  logs : Nat
  deriving DecidableEq, Repr

/-- `apiHandler.notifyClients` (source lines 110-125), as a function of the
registry snapshot it reads under the lock.  `writeFails c = true` models
`conn.WriteJSON(msg)` returning an error for connection `c`.  The loop
writes to every registered connection of `msg.RoomID`; a failed write is
logged and triggers that connection's cancel, and iteration continues.
The registry itself is never mutated (the Go body only reads the map). -/
def notifyClients (reg : Registry) (msg : Message) (writeFails : ConnId → Bool) :
    DispatchResult :=
  match reg.lookup msg.roomID with
  | none => ⟨[], [], 0⟩
  | some conns =>
    if conns.length = 0 then ⟨[], [], 0⟩
    else ⟨conns, conns.filter writeFails, (conns.filter writeFails).length⟩

/-! ## The hub as a labelled transition system

`handleSubscribe` spawns one goroutine per connection; `notifyClients` runs
in publisher goroutines.  Every access to `h.subscribers` is a critical
section under `h.mu`, so the concurrent behaviour of the hub is the set of
interleavings of these atomic sections, embedded below as `Step`. -/

/-- Lifecycle phase of one `handleSubscribe` goroutine: before the
registration critical section (lines 143-149), blocked on `<-ctx.Done()`
(line 151), or past the teardown critical section (lines 153-155). -/
inductive SubPhase where
  | connecting
  | active
  | closed
  deriving DecidableEq, Repr

/-- One subscriber's lifecycle state: the room it subscribes to, its phase,
and whether its cancellation control (`cancel` from
`context.WithCancel`) has been triggered. -/
structure SubState where
  room : RoomId
  phase : SubPhase
  cancelled : Bool
  deriving DecidableEq, Repr

/-- The whole hub: the shared registry plus every subscriber lifecycle. -/
structure Hub where
  registry : Registry
  subs : List (ConnId × SubState)
  deriving DecidableEq, Repr

/-- Look up a subscriber lifecycle by connection id. -/
def lookupSub : List (ConnId × SubState) → ConnId → Option SubState
  | [], _ => none
  | (c', s) :: rest, c => if c' = c then some s else lookupSub rest c

/-- Update the lifecycle record of connection `c`. -/
def updateSub (subs : List (ConnId × SubState)) (c : ConnId) (f : SubState → SubState) :
    List (ConnId × SubState) :=
  subs.map fun p => if p.1 = c then (p.1, f p.2) else p

/-- Trigger the cancellation control of every connection in `failed`
(the dispatcher calling `cancel()` on each failed write). -/
def cancelFailed (subs : List (ConnId × SubState)) (failed : List ConnId) :
    List (ConnId × SubState) :=
  subs.map fun p => if p.1 ∈ failed then (p.1, { p.2 with cancelled := true }) else p

/-- Labels naming the four kinds of atomic critical section. -/
inductive Label where
  | registerL : ConnId → Label
  | cancelL : ConnId → Label
  | publishL : Message → (ConnId → Bool) → Label
  | deregisterL : ConnId → Label

/-- One atomic lock-guarded critical section of the Go code:
  * `register`: `handleSubscribe` lines 143-149 — runs once per connection,
    after the upgrade, moving the goroutine from `connecting` to `active`;
  * `cancelFire`: the connection's `context.CancelFunc` fires from outside
    the dispatcher (request context ends: client disconnect or shutdown);
  * `publish`: one `notifyClients` call — reads the registry, writes to the
    target room's connections, and triggers the cancel of each connection
    whose write failed; the registry is not mutated;
  * `deregister`: `handleSubscribe` lines 151-155 — `<-ctx.Done()` returns
    (requires the cancel to have fired and the goroutine to be past
    registration) and the connection is deleted from its room's map. -/
inductive Step : Hub → Label → Hub → Prop where
  | register (s : Hub) (c : ConnId) (sub : SubState)
      (hc : lookupSub s.subs c = some sub) (hp : sub.phase = .connecting) :
      Step s (.registerL c)
        ⟨s.registry.register sub.room c,
         updateSub s.subs c fun t => { t with phase := .active }⟩
  | cancelFire (s : Hub) (c : ConnId) (sub : SubState)
      (hc : lookupSub s.subs c = some sub) :
      Step s (.cancelL c)
        ⟨s.registry, updateSub s.subs c fun t => { t with cancelled := true }⟩
  | publish (s : Hub) (msg : Message) (writeFails : ConnId → Bool) :
      Step s (.publishL msg writeFails)
        ⟨s.registry,
         cancelFailed s.subs (notifyClients s.registry msg writeFails).failed⟩
  | deregister (s : Hub) (c : ConnId) (sub : SubState)
      (hc : lookupSub s.subs c = some sub) (hp : sub.phase = .active)
      (hx : sub.cancelled = true) :
      Step s (.deregisterL c)
        ⟨s.registry.deregister sub.room c,
         updateSub s.subs c fun t => { t with phase := .closed }⟩

/-- Initial hub states: empty registry (`make(map[...])` in `NewHandler`),
every connection still in `connecting` with its cancel untriggered, and
distinct connection ids (distinct `*websocket.Conn` pointers). -/
def InitHub (s : Hub) : Prop :=
  s.registry = [] ∧ (∀ p ∈ s.subs, p.2.phase = .connecting ∧ p.2.cancelled = false) ∧
    (s.subs.map Prod.fst).Nodup

/-- Hub states reachable from some initial state by atomic steps. -/
inductive Reachable : Hub → Prop where
  | init (s : Hub) : InitHub s → Reachable s
  | step (s s' : Hub) (l : Label) : Reachable s → Step s l s' → Reachable s'

/-- The hub invariant: the registry is a well-formed Go map, connection
ids are distinct, and every connection id present in some room's set
belongs to a subscriber registered for exactly that room whose lifecycle
is in the `active` phase. -/
def HubWF (s : Hub) : Prop :=
  s.registry.WF ∧ (s.subs.map Prod.fst).Nodup ∧
    ∀ c r, c ∈ s.registry.conns r →
      ∃ sub, lookupSub s.subs c = some sub ∧ sub.room = r ∧ sub.phase = .active

/-- The claim "after a subscriber's cancellation control fires (by any
source), every subsequent publish for its room does not attempt delivery
to it, and it is absent from the registry's set for that room", rendered
over reachable hub states. -/
def CancelImpliesAbsent : Prop :=
  ∀ s, Reachable s → ∀ c sub, lookupSub s.subs c = some sub → sub.cancelled = true →
    (∀ msg writeFails, msg.roomID = sub.room →
      c ∉ (notifyClients s.registry msg writeFails).attempted) ∧
    c ∉ s.registry.conns sub.room

/-- A one-subscriber initial state: connection 0 about to subscribe to
room `r1`. -/
def hub0 : Hub := ⟨[], [(0, ⟨"r1", .connecting, false⟩)]⟩

/-- `hub0` after connection 0's registration critical section. -/
def hub1 : Hub :=
  ⟨hub0.registry.register "r1" 0, updateSub hub0.subs 0 fun t => { t with phase := .active }⟩

/-- `hub1` after connection 0's cancellation control fires; its goroutine
has not yet run the teardown critical section. -/
def hub2 : Hub :=
  ⟨hub1.registry, updateSub hub1.subs 0 fun t => { t with cancelled := true }⟩

/-- `hub2` after connection 0's goroutine wakes from `<-ctx.Done()` and
deletes itself from the registry. -/
def hub3 : Hub :=
  ⟨hub2.registry.deregister "r1" 0, updateSub hub2.subs 0 fun t => { t with phase := .closed }⟩

/-- A `message_created` event targeted at room `r1`. -/
def msgR1 : Message := ⟨MessageCreated, .created ⟨"m1", "hi"⟩, "r1"⟩

/-! ## The HTTP layer

The handlers of the source file and of `utils.go`, embedded as functions
from the outcomes of their external calls (UUID parsing, store queries,
connection upgrade) to the ordered list of observable actions they
perform. -/

/-- Row of the `rooms` table (`pgstore.Room`). -/
structure Room where
  id : UUID
  theme : String
  deriving DecidableEq, Repr

/-- Row of the `messages` table (`pgstore.Message`), columns from the
migration: id, room_id, message, reaction_count (bigint), answered. -/
structure MessageRow where
  id : UUID
  roomID : UUID
  message : String
  reactionCount : Int
  answered : Bool
  deriving DecidableEq, Repr

/-- Outcome of `h.q.GetRoom`: a row, `pgx.ErrNoRows`, or another error. -/
inductive GetRoomResult where
  | found : Room → GetRoomResult
  | noRows : GetRoomResult
  | otherErr : GetRoomResult
  deriving DecidableEq, Repr

/-- Outcome of `h.q.GetMessage`. -/
inductive GetMessageResult where
  | found : MessageRow → GetMessageResult
  | noRows : GetMessageResult
  | otherErr : GetMessageResult
  deriving DecidableEq, Repr

/-- An observable action of an HTTP handler, in program order. -/
inductive HAction where
  | httpError (status : Nat) (body : String)
  | logError (tag : String)
  | logWarn (tag : String)
  | logInfo (tag : String)
  | respondJSON (v : Json)
  | writeHeader (status : Nat)
  | spawnNotify (m : Message)

/-- `readRoom` (utils.go lines 15-40): `parsed` is the outcome of
`uuid.Parse(rawRoomID)`, `store` the outcome of `h.q.GetRoom`.  Returns
the actions performed and, on success, the `(room, rawRoomID, roomID)`
triple. -/
def readRoom (rawRoomID : String) (parsed : Option UUID)
    (store : UUID → GetRoomResult) : List HAction × Option (Room × String × UUID) :=
  match parsed with
  | none => ([.httpError 400 "invalid room id"], none)
  | some roomID =>
    match store roomID with
    | .found room => ([], some (room, rawRoomID, roomID))
    | .noRows => ([.httpError 400 "room not found"], none)
    | .otherErr =>
      ([.logError "failed to get room", .httpError 500 "something went wrong"], none)

/-- `readMessage` (utils.go lines 42-67), analogous to `readRoom`. -/
def readMessage (rawMessageID : String) (parsed : Option UUID)
    (store : UUID → GetMessageResult) :
    List HAction × Option (MessageRow × String × UUID) :=
  match parsed with
  | none => ([.httpError 400 "invalid message id"], none)
  | some messageID =>
    match store messageID with
    | .found message => ([], some (message, rawMessageID, messageID))
    | .noRows => ([.httpError 400 "message not found"], none)
    | .otherErr =>
      ([.logError "failed to get message", .httpError 500 "something went wrong"], none)

/-- Observable outcome of `handleSubscribe` up to and including the
registration critical section (the remainder of its lifecycle is the
`Step` system). -/
structure SubscribeOutcome where
  actions : List HAction
  upgradeAttempted : Bool
  registered : Bool
  registry : Registry

/-- `handleSubscribe` (source lines 127-149): validate the room via
`readRoom`; on failure return before the upgrade; otherwise attempt the
upgrade (`upgradeOk` is its outcome) and, on success, register the
connection under the raw room id. -/
def handleSubscribe (reg : Registry) (rawRoomID : String) (parsed : Option UUID)
    (store : UUID → GetRoomResult) (upgradeOk : Bool) (c : ConnId) :
    SubscribeOutcome :=
  let rr := readRoom rawRoomID parsed store
  match rr.2 with
  | none => ⟨rr.1, false, false, reg⟩
  | some (_, rawRoomID', _) =>
    if upgradeOk then
      ⟨rr.1 ++ [.logInfo "new client connected"], true, true,
        reg.register rawRoomID' c⟩
    else
      ⟨rr.1 ++ [.logWarn "failed to upgrade connection",
        .httpError 400 "failed to upgrade to ws connection"], true, false, reg⟩

/-- `handleCreateRoomMessage` (source lines 195-233): `body` is the decoded
`{message}` body (`none` on invalid JSON), `insertRes` the outcome of
`h.q.InsertMessage`.  On success it responds `{id}` and then spawns the
async publish of `message_created` (`go h.notifyClients(...)`). -/
def handleCreateRoomMessage (rawRoomID : String) (parsedRoom : Option UUID)
    (storeRoom : UUID → GetRoomResult) (body : Option String)
    (insertRes : Except Unit UUID) : List HAction :=
  let rr := readRoom rawRoomID parsedRoom storeRoom
  match rr.2 with
  | none => rr.1
  | some (_, rawRoomID', _) =>
    match body with
    | none => rr.1 ++ [.httpError 400 "invalid json"]
    | some message =>
      match insertRes with
      | .error _ =>
        rr.1 ++ [.logError "failed to insert message",
          .httpError 500 "something went wrong"]
      | .ok messageID =>
        rr.1 ++ [.respondJSON (.obj [("id", .str messageID)]),
          .spawnNotify ⟨MessageCreated, .created ⟨messageID, message⟩, rawRoomID'⟩]

/-- `handleAddReactToMessage` (source lines 268-300): `reactRes` is the
outcome of `h.q.ReactToMessage` (an `int64` count on success).  On success
it responds `{count}` and spawns the async publish of
`message_reaction_increased` whose payload id is the raw message id. -/
def handleAddReactToMessage (rawRoomID : String) (parsedRoom : Option UUID)
    (storeRoom : UUID → GetRoomResult) (rawMessageID : String)
    (parsedMessage : Option UUID) (storeMessage : UUID → GetMessageResult)
    (reactRes : Except Unit Int) : List HAction :=
  let rr := readRoom rawRoomID parsedRoom storeRoom
  match rr.2 with
  | none => rr.1
  | some (_, rawRoomID', _) =>
    let rm := readMessage rawMessageID parsedMessage storeMessage
    match rm.2 with
    | none => rr.1 ++ rm.1
    | some (_, rawMessageID', _) =>
      match reactRes with
      | .error _ =>
        rr.1 ++ rm.1 ++ [.logError "failed to react to message",
          .httpError 500 "something went wrong"]
      | .ok count =>
        rr.1 ++ rm.1 ++ [.respondJSON (.obj [("count", .int count)]),
          .spawnNotify ⟨MessageRactionIncreased,
            .reactionIncreased ⟨rawMessageID', count⟩, rawRoomID'⟩]

/-- `handleRemoveReactFromMessage` (source lines 302-334), analogous, with
`h.q.RemoveReactionFromMessage` and `message_reaction_decreased`. -/
def handleRemoveReactFromMessage (rawRoomID : String) (parsedRoom : Option UUID)
    (storeRoom : UUID → GetRoomResult) (rawMessageID : String)
    (parsedMessage : Option UUID) (storeMessage : UUID → GetMessageResult)
    (reactRes : Except Unit Int) : List HAction :=
  let rr := readRoom rawRoomID parsedRoom storeRoom
  match rr.2 with
  | none => rr.1
  | some (_, rawRoomID', _) =>
    let rm := readMessage rawMessageID parsedMessage storeMessage
    match rm.2 with
    | none => rr.1 ++ rm.1
    | some (_, rawMessageID', _) =>
      match reactRes with
      | .error _ =>
        rr.1 ++ rm.1 ++ [.logError "failed to remove react from message",
          .httpError 500 "something went wrong"]
      | .ok count =>
        rr.1 ++ rm.1 ++ [.respondJSON (.obj [("count", .int count)]),
          .spawnNotify ⟨MessageRactionDecreased,
            .reactionDecreased ⟨rawMessageID', count⟩, rawRoomID'⟩]

/-- `handleMarkMessageAsAnswered` (source lines 336-363): on success it
writes status 200 and spawns the async publish of `message_answered`. -/
def handleMarkMessageAsAnswered (rawRoomID : String) (parsedRoom : Option UUID)
    (storeRoom : UUID → GetRoomResult) (rawMessageID : String)
    (parsedMessage : Option UUID) (storeMessage : UUID → GetMessageResult)
    (markRes : Except Unit Unit) : List HAction :=
  let rr := readRoom rawRoomID parsedRoom storeRoom
  match rr.2 with
  | none => rr.1
  | some (_, rawRoomID', _) =>
    let rm := readMessage rawMessageID parsedMessage storeMessage
    match rm.2 with
    | none => rr.1 ++ rm.1
    | some (_, rawMessageID', _) =>
      match markRes with
      | .error _ =>
        rr.1 ++ rm.1 ++ [.logError "failed to mark message as answered",
          .httpError 500 "something went wrong"]
      | .ok _ =>
        rr.1 ++ rm.1 ++ [.writeHeader 200,
          .spawnNotify ⟨MessageAnswered, .answered ⟨rawMessageID'⟩, rawRoomID'⟩]

/-- An action that sends the handler's own HTTP success response. -/
def IsResponse : HAction → Prop
  | .respondJSON _ => True
  | .writeHeader _ => True
  | _ => False

/-- The trace sends the handler's own HTTP response first and only then
spawns the asynchronous publish of `m` (`go h.notifyClients(m)`), so the
response never waits on subscriber delivery. -/
def RespondsThenSpawns (trace : List HAction) (m : Message) : Prop :=
  ∃ resp, IsResponse resp ∧ trace = [resp, .spawnNotify m]

/-- The wire form of an event, as serialized by `conn.WriteJSON`: the
serialization ignores the target room id entirely, and the envelope is
`{kind, value}` where `kind` is one of the four event-kind strings and
`value` has that kind's fixed payload shape (`count` a 64-bit signed
integer). -/
def WireOK (m : Message) : Prop :=
  (∀ r', marshalMessage { m with roomID := r' } = marshalMessage m) ∧
  ((m.kind = MessageCreated ∧ ∃ i t, marshalMessage m =
      .obj [("kind", .str MessageCreated),
        ("value", .obj [("id", .str i), ("message", .str t)])]) ∨
   (m.kind = MessageRactionIncreased ∧ ∃ i n, Int64Range n ∧ marshalMessage m =
      .obj [("kind", .str MessageRactionIncreased),
        ("value", .obj [("id", .str i), ("count", .int n)])]) ∨
   (m.kind = MessageRactionDecreased ∧ ∃ i n, Int64Range n ∧ marshalMessage m =
      .obj [("kind", .str MessageRactionDecreased),
        ("value", .obj [("id", .str i), ("count", .int n)])]) ∨
   (m.kind = MessageAnswered ∧ ∃ i, marshalMessage m =
      .obj [("kind", .str MessageAnswered), ("value", .obj [("id", .str i)])]))

/-- `encoding/json` form of a `pgstore.Room` row. -/
def roomJson (r : Room) : Json :=
  .obj [("id", .str r.id), ("theme", .str r.theme)]

/-- `encoding/json` form of a `pgstore.Message` row. -/
def messageRowJson (m : MessageRow) : Json :=
  .obj [("id", .str m.id), ("room_id", .str m.roomID), ("message", .str m.message),
    ("reaction_count", .int m.reactionCount), ("answered", .bool m.answered)]

/-- `encoding/json` form of a Go slice of rooms: a `nil` slice marshals to
JSON `null`, a non-nil slice to an array. -/
def marshalRoomSlice : Option (List Room) → Json
  | none => .null
  | some l => .arr (l.map roomJson)

/-- `encoding/json` form of a Go slice of message rows. -/
def marshalMessageSlice : Option (List MessageRow) → Json
  | none => .null
  | some l => .arr (l.map messageRowJson)

/-- `handleGetRooms` (source lines 181-193): `res` is the outcome of
`h.q.GetRooms`, with `some none` meaning success with a `nil` slice.  A
`nil` result is replaced by the empty slice before `sendJSON`. -/
def handleGetRooms (res : Except Unit (Option (List Room))) : List HAction :=
  match res with
  | .error _ =>
    [.logError "failed to get rooms", .httpError 500 "something went wrong"]
  | .ok rooms =>
    let rooms := match rooms with
      | none => some ([] : List Room)
      | some l => some l
    [.respondJSON (marshalRoomSlice rooms)]

/-- `handleGetRoomMessages` (source lines 235-252): after `readRoom`, `res`
is the outcome of `h.q.GetRoomMessages`; a `nil` slice is replaced by the
empty slice before `sendJSON`. -/
def handleGetRoomMessages (rawRoomID : String) (parsedRoom : Option UUID)
    (storeRoom : UUID → GetRoomResult)
    (res : Except Unit (Option (List MessageRow))) : List HAction :=
  let rr := readRoom rawRoomID parsedRoom storeRoom
  match rr.2 with
  | none => rr.1
  | some _ =>
    match res with
    | .error _ =>
      rr.1 ++ [.logError "failed to get room messages",
        .httpError 500 "something went wrong"]
    | .ok messages =>
      let messages := match messages with
        | none => some ([] : List MessageRow)
        | some l => some l
      rr.1 ++ [.respondJSON (marshalMessageSlice messages)]

/-- An observable action of `sendJSON` (utils.go lines 69-73). -/
inductive WAction where
  | setHeader (key val : String)
  | writeBody (data : List Nat)
  deriving DecidableEq, Repr

/-- `sendJSON` (utils.go lines 69-73): `marshalResult` is the outcome of
`json.Marshal(rawData)`.  The error is discarded (`data, _ := ...`), so on
a marshal error `data` is `nil` and `w.Write(nil)` writes zero bytes; the
Content-Type header is set unconditionally and no failure is ever
signalled (the implicit status stays 200). -/
def sendJSON (marshalResult : Except String (List Nat)) : List WAction :=
  let data := match marshalResult with
    | .ok d => d
    | .error _ => []
  [.setHeader "Content-Type" "application/json", .writeBody data]

/-! ## Claim C1 -/

/-- C1: `notifyClients` attempts delivery to exactly the subscribers
currently registered under the event's target room; a subscriber
registered only under a different room is never written to; and when the
target room has no registry entry or an empty set, the call does nothing
and returns the empty outcome. -/
theorem notifyClients_targets_exactly_room (reg : Registry) (msg : Message)
    (writeFails : ConnId → Bool) :
    (∀ c, c ∈ (notifyClients reg msg writeFails).attempted ↔
      c ∈ reg.conns msg.roomID) ∧
    (∀ r' c, r' ≠ msg.roomID → c ∈ reg.conns r' → c ∉ reg.conns msg.roomID →
      c ∉ (notifyClients reg msg writeFails).attempted) ∧
    ((reg.lookup msg.roomID = none ∨ reg.lookup msg.roomID = some []) →
      notifyClients reg msg writeFails = ⟨[], [], 0⟩) := by
  refine ⟨?_, ?_, ?_⟩
  · intro c
    unfold notifyClients Registry.conns
    cases h : reg.lookup msg.roomID with
    | none => simp
    | some conns =>
      cases conns with
      | nil => simp
      | cons a l => simp
  · intro r' c _ _ hnot hmem
    exact hnot (((by
      unfold notifyClients Registry.conns
      cases h : reg.lookup msg.roomID with
      | none => simp
      | some conns => cases conns with
        | nil => simp
        | cons a l => simp : ∀ x, x ∈ (notifyClients reg msg writeFails).attempted ↔
            x ∈ reg.conns msg.roomID)) c |>.mp hmem)
  · intro h
    unfold notifyClients
    rcases h with h | h
    · rw [h]
    · rw [h]; rfl

/-- Witness for C1 on a concrete registry: with rooms `r1 ↦ {1, 2}` and
`r2 ↦ {3}`, publishing to `r1` attempts 1 and not 3; publishing to an
unknown room `r3` does nothing. -/
theorem notifyClients_targets_exactly_room_witness :
    1 ∈ (notifyClients [("r1", [1, 2]), ("r2", [3])]
      ⟨MessageCreated, .created ⟨"m1", "hi"⟩, "r1"⟩ (fun _ => false)).attempted ∧
    3 ∉ (notifyClients [("r1", [1, 2]), ("r2", [3])]
      ⟨MessageCreated, .created ⟨"m1", "hi"⟩, "r1"⟩ (fun _ => false)).attempted ∧
    notifyClients [("r1", [1, 2]), ("r2", [3])]
      ⟨MessageCreated, .created ⟨"m1", "hi"⟩, "r3"⟩ (fun _ => false) = ⟨[], [], 0⟩ := by
  refine ⟨?_, ?_, ?_⟩
  · exact (notifyClients_targets_exactly_room [("r1", [1, 2]), ("r2", [3])]
      ⟨MessageCreated, .created ⟨"m1", "hi"⟩, "r1"⟩ (fun _ => false)).1 1 |>.mpr (by decide)
  · exact (notifyClients_targets_exactly_room [("r1", [1, 2]), ("r2", [3])]
      ⟨MessageCreated, .created ⟨"m1", "hi"⟩, "r1"⟩ (fun _ => false)).2.1 "r2" 3
      (by decide) (by decide) (by decide)
  · exact (notifyClients_targets_exactly_room [("r1", [1, 2]), ("r2", [3])]
      ⟨MessageCreated, .created ⟨"m1", "hi"⟩, "r3"⟩ (fun _ => false)).2.2 (Or.inl (by decide))

/-! ## Registry lemmas -/

theorem Registry.lookup_eq_none_iff (reg : Registry) (room : RoomId) :
    reg.lookup room = none ↔ room ∉ reg.map Prod.fst := by
  induction reg with
  | nil => simp [Registry.lookup]
  | cons p rest ih =>
    obtain ⟨r, l⟩ := p
    by_cases h : r = room
    · subst h; simp [Registry.lookup]
    · simp [Registry.lookup, h, ih, Ne.symm h]

theorem Registry.lookup_mem {reg : Registry} {room : RoomId} {l : List ConnId}
    (h : reg.lookup room = some l) : (room, l) ∈ reg := by
  induction reg with
  | nil => simp [Registry.lookup] at h
  | cons p rest ih =>
    obtain ⟨r, l'⟩ := p
    by_cases hr : r = room
    · subst hr
      simp [Registry.lookup] at h
      subst h
      exact List.mem_cons_self _ _
    · simp [Registry.lookup, hr] at h
      exact List.mem_cons_of_mem _ (ih h)

theorem Registry.WF.lookup_nodup {reg : Registry} (hwf : reg.WF) {room : RoomId}
    {l : List ConnId} (h : reg.lookup room = some l) : l.Nodup :=
  hwf.2 (room, l) (Registry.lookup_mem h)

theorem Registry.lookup_map_room (reg : Registry) (room : RoomId)
    (g : List ConnId → List ConnId) :
    Registry.lookup (reg.map fun p => if p.1 = room then (p.1, g p.2) else p) room =
      (Registry.lookup reg room).map g := by
  induction reg with
  | nil => rfl
  | cons p rest ih =>
    obtain ⟨r, l⟩ := p
    rw [List.map_cons]
    by_cases h : r = room
    · subst h
      show Registry.lookup ((if r = r then (r, g l) else (r, l)) :: _) r = _
      rw [if_pos rfl]
      simp [Registry.lookup]
    · show Registry.lookup ((if r = room then (r, g l) else (r, l)) :: _) room = _
      rw [if_neg h]
      simpa [Registry.lookup, h] using ih

theorem Registry.lookup_map_room_ne (reg : Registry) {room room' : RoomId}
    (g : List ConnId → List ConnId) (h : room' ≠ room) :
    Registry.lookup (reg.map fun p => if p.1 = room then (p.1, g p.2) else p) room' =
      Registry.lookup reg room' := by
  induction reg with
  | nil => rfl
  | cons p rest ih =>
    obtain ⟨r, l⟩ := p
    rw [List.map_cons]
    by_cases hr : r = room
    · subst hr
      show Registry.lookup ((if r = r then (r, g l) else (r, l)) :: _) room' = _
      rw [if_pos rfl]
      simpa [Registry.lookup, Ne.symm h] using ih
    · show Registry.lookup ((if r = room then (r, g l) else (r, l)) :: _) room' = _
      rw [if_neg hr]
      by_cases hr' : r = room'
      · subst hr'; simp [Registry.lookup]
      · simpa [Registry.lookup, hr'] using ih

theorem Registry.lookup_deregister_self (reg : Registry) (room : RoomId) (c : ConnId) :
    Registry.lookup (reg.deregister room c) room =
      (Registry.lookup reg room).map fun l => l.erase c :=
  Registry.lookup_map_room reg room fun l => l.erase c

theorem Registry.lookup_deregister_ne (reg : Registry) {room room' : RoomId} (c : ConnId)
    (h : room' ≠ room) :
    Registry.lookup (reg.deregister room c) room' = Registry.lookup reg room' :=
  Registry.lookup_map_room_ne reg (fun l => l.erase c) h

theorem Registry.map_fst_deregister (reg : Registry) (room : RoomId) (c : ConnId) :
    (reg.deregister room c).map Prod.fst = reg.map Prod.fst := by
  unfold Registry.deregister
  rw [List.map_map]
  apply List.map_congr_left
  intro p _
  by_cases h : p.1 = room <;> simp [h]

theorem Registry.lookup_register_none {reg : Registry} {room : RoomId} (c : ConnId)
    (h : Registry.lookup reg room = none) :
    Registry.lookup (reg.register room c) room = some [c] := by
  simp [Registry.register, h, Registry.lookup]

theorem Registry.lookup_register_some {reg : Registry} {room : RoomId} (c : ConnId)
    {l : List ConnId} (h : Registry.lookup reg room = some l) :
    Registry.lookup (reg.register room c) room = some (Registry.insertConn c l) := by
  simp only [Registry.register, h]
  rw [Registry.lookup_map_room, h]
  rfl

theorem Registry.lookup_register_ne (reg : Registry) {room room' : RoomId} (c : ConnId)
    (h : room' ≠ room) :
    Registry.lookup (reg.register room c) room' = Registry.lookup reg room' := by
  unfold Registry.register
  cases hl : Registry.lookup reg room with
  | none => simp [Registry.lookup, Ne.symm h]
  | some l => exact Registry.lookup_map_room_ne reg (Registry.insertConn c) h

theorem Registry.map_fst_register_some {reg : Registry} {room : RoomId} (c : ConnId)
    {l : List ConnId} (h : Registry.lookup reg room = some l) :
    (reg.register room c).map Prod.fst = reg.map Prod.fst := by
  simp only [Registry.register, h]
  rw [List.map_map]
  apply List.map_congr_left
  intro p _
  by_cases hp : p.1 = room <;> simp [hp]

theorem Registry.mem_insertConn (c c' : ConnId) (l : List ConnId) :
    c' ∈ Registry.insertConn c l ↔ c' = c ∨ c' ∈ l := by
  unfold Registry.insertConn
  by_cases h : c ∈ l
  · simp only [if_pos h]
    constructor
    · exact Or.inr
    · rintro (rfl | hm)
      · exact h
      · exact hm
  · simp [if_neg h]

theorem Registry.insertConn_nodup (c : ConnId) {l : List ConnId} (h : l.Nodup) :
    (Registry.insertConn c l).Nodup := by
  unfold Registry.insertConn
  by_cases hc : c ∈ l
  · simpa [if_pos hc]
  · simpa [if_neg hc, h]

theorem Registry.mem_conns_register (reg : Registry) (room : RoomId) (c c' : ConnId)
    (r : RoomId) :
    c' ∈ (reg.register room c).conns r ↔ c' ∈ reg.conns r ∨ (c' = c ∧ r = room) := by
  unfold Registry.conns
  by_cases hr : r = room
  · subst hr
    cases hl : Registry.lookup reg r with
    | none => rw [Registry.lookup_register_none c hl]; simp
    | some l =>
      rw [Registry.lookup_register_some c hl]
      simp only [Option.getD_some]
      rw [Registry.mem_insertConn]
      tauto
  · rw [Registry.lookup_register_ne reg c hr]
    simp [hr]

theorem Registry.mem_conns_deregister {reg : Registry} (hwf : reg.WF) (room : RoomId)
    (c c' : ConnId) (r : RoomId) :
    c' ∈ (reg.deregister room c).conns r ↔ c' ∈ reg.conns r ∧ ¬(c' = c ∧ r = room) := by
  unfold Registry.conns
  by_cases hr : r = room
  · subst hr
    rw [Registry.lookup_deregister_self]
    cases hl : Registry.lookup reg r with
    | none => simp
    | some l =>
      have hnd := hwf.lookup_nodup hl
      simp only [Option.map_some', Option.getD_some]
      rw [hnd.mem_erase_iff]
      tauto
  · rw [Registry.lookup_deregister_ne reg c hr]
    simp [hr]

theorem Registry.WF_register {reg : Registry} (hwf : reg.WF) (room : RoomId) (c : ConnId) :
    (reg.register room c).WF := by
  cases hl : Registry.lookup reg room with
  | none =>
    constructor
    · simp only [Registry.register, hl, List.map_cons]
      exact List.nodup_cons.mpr ⟨(Registry.lookup_eq_none_iff reg room).mp hl, hwf.1⟩
    · intro p hp
      simp only [Registry.register, hl] at hp
      rcases List.mem_cons.mp hp with rfl | hp
      · simp
      · exact hwf.2 p hp
  | some l =>
    constructor
    · rw [Registry.map_fst_register_some c hl]; exact hwf.1
    · intro p hp
      simp only [Registry.register, hl] at hp
      rcases List.mem_map.mp hp with ⟨q, hq, rfl⟩
      by_cases h : q.1 = room
      · rw [if_pos h]; exact Registry.insertConn_nodup c (hwf.2 q hq)
      · rw [if_neg h]; exact hwf.2 q hq

theorem Registry.WF_deregister {reg : Registry} (hwf : reg.WF) (room : RoomId) (c : ConnId) :
    (reg.deregister room c).WF := by
  constructor
  · rw [Registry.map_fst_deregister]; exact hwf.1
  · intro p hp
    rcases List.mem_map.mp hp with ⟨q, hq, rfl⟩
    by_cases h : q.1 = room
    · rw [if_pos h]; exact (hwf.2 q hq).erase c
    · rw [if_neg h]; exact hwf.2 q hq

/-! ## Subscriber-lifecycle lemmas -/

theorem lookupSub_updateSub (subs : List (ConnId × SubState)) (c c' : ConnId)
    (f : SubState → SubState) :
    lookupSub (updateSub subs c f) c' =
      if c' = c then (lookupSub subs c).map f else lookupSub subs c' := by
  induction subs with
  | nil => by_cases h : c' = c <;> simp [lookupSub, updateSub, h]
  | cons p rest ih =>
    obtain ⟨a, s⟩ := p
    rw [show updateSub ((a, s) :: rest) c f =
      (if a = c then (a, f s) else (a, s)) :: updateSub rest c f from rfl]
    by_cases hac : a = c
    · rw [if_pos hac]
      subst hac
      by_cases hac' : a = c'
      · subst hac'
        simp [lookupSub]
      · simp [lookupSub, hac', Ne.symm hac', ih]
    · rw [if_neg hac]
      by_cases hac' : a = c'
      · subst hac'
        have : a ≠ c := hac
        simp [lookupSub, Ne.symm this, this]
      · simp [lookupSub, hac, hac', ih]

theorem lookupSub_cancelFailed (subs : List (ConnId × SubState)) (failed : List ConnId)
    (c : ConnId) :
    lookupSub (cancelFailed subs failed) c =
      (lookupSub subs c).map fun s =>
        if c ∈ failed then { s with cancelled := true } else s := by
  induction subs with
  | nil => simp [lookupSub, cancelFailed]
  | cons p rest ih =>
    obtain ⟨a, s⟩ := p
    rw [show cancelFailed ((a, s) :: rest) failed =
      (if a ∈ failed then (a, { s with cancelled := true }) else (a, s)) ::
        cancelFailed rest failed from rfl]
    by_cases haf : a ∈ failed
    · rw [if_pos haf]
      by_cases hac : a = c
      · subst hac; simp [lookupSub, haf]
      · simp [lookupSub, hac, ih]
    · rw [if_neg haf]
      by_cases hac : a = c
      · subst hac; simp [lookupSub, haf]
      · simp [lookupSub, hac, ih]

theorem map_fst_updateSub (subs : List (ConnId × SubState)) (c : ConnId)
    (f : SubState → SubState) :
    (updateSub subs c f).map Prod.fst = subs.map Prod.fst := by
  unfold updateSub
  rw [List.map_map]
  apply List.map_congr_left
  intro p _
  by_cases h : p.1 = c <;> simp [h]

theorem map_fst_cancelFailed (subs : List (ConnId × SubState)) (failed : List ConnId) :
    (cancelFailed subs failed).map Prod.fst = subs.map Prod.fst := by
  unfold cancelFailed
  rw [List.map_map]
  apply List.map_congr_left
  intro p _
  by_cases h : p.1 ∈ failed <;> simp [h]

/-! ## The hub invariant -/

theorem hubWF_init {s : Hub} (h : InitHub s) : HubWF s := by
  obtain ⟨hreg, _, hnd⟩ := h
  refine ⟨?_, hnd, ?_⟩
  · rw [hreg]; exact ⟨List.nodup_nil, by simp⟩
  · intro c r hc
    rw [hreg] at hc
    simp [Registry.conns, Registry.lookup] at hc

theorem hubWF_step {s s' : Hub} {l : Label} (hwf : HubWF s) (hstep : Step s l s') :
    HubWF s' := by
  obtain ⟨hreg, hnd, hinv⟩ := hwf
  cases hstep with
  | register c sub hc hp =>
    refine ⟨Registry.WF_register hreg _ _, ?_, ?_⟩
    · rw [map_fst_updateSub]; exact hnd
    · intro c' r hc'
      rw [Registry.mem_conns_register] at hc'
      rcases hc' with hc' | ⟨rfl, rfl⟩
      · obtain ⟨sub', hs', hroom, hphase⟩ := hinv c' r hc'
        by_cases hcc : c' = c
        · subst hcc
          rw [hc] at hs'
          injection hs' with he
          rw [← he, hp] at hphase
          exact absurd hphase (by simp)
        · refine ⟨sub', ?_, hroom, hphase⟩
          rw [lookupSub_updateSub, if_neg hcc]
          exact hs'
      · refine ⟨{ sub with phase := .active }, ?_, rfl, rfl⟩
        rw [lookupSub_updateSub, if_pos rfl, hc]
        rfl
  | cancelFire c sub hc =>
    refine ⟨hreg, ?_, ?_⟩
    · rw [map_fst_updateSub]; exact hnd
    · intro c' r hc'
      obtain ⟨sub', hs', hroom, hphase⟩ := hinv c' r hc'
      rw [lookupSub_updateSub]
      by_cases hcc : c' = c
      · subst hcc
        rw [if_pos rfl, hs']
        exact ⟨{ sub' with cancelled := true }, rfl, hroom, hphase⟩
      · rw [if_neg hcc]
        exact ⟨sub', hs', hroom, hphase⟩
  | publish msg writeFails =>
    refine ⟨hreg, ?_, ?_⟩
    · rw [map_fst_cancelFailed]; exact hnd
    · intro c' r hc'
      obtain ⟨sub', hs', hroom, hphase⟩ := hinv c' r hc'
      rw [lookupSub_cancelFailed, hs']
      simp only [Option.map_some']
      refine ⟨_, rfl, ?_, ?_⟩
      · by_cases hcf : c' ∈ (notifyClients s.registry msg writeFails).failed
        · rw [if_pos hcf]; exact hroom
        · rw [if_neg hcf]; exact hroom
      · by_cases hcf : c' ∈ (notifyClients s.registry msg writeFails).failed
        · rw [if_pos hcf]; exact hphase
        · rw [if_neg hcf]; exact hphase
  | deregister c sub hc hp hx =>
    refine ⟨Registry.WF_deregister hreg _ _, ?_, ?_⟩
    · rw [map_fst_updateSub]; exact hnd
    · intro c' r hc'
      rw [Registry.mem_conns_deregister hreg] at hc'
      obtain ⟨hc', hne⟩ := hc'
      obtain ⟨sub', hs', hroom, hphase⟩ := hinv c' r hc'
      rw [lookupSub_updateSub]
      by_cases hcc : c' = c
      · subst hcc
        rw [hc] at hs'
        injection hs' with he
        exact absurd ⟨rfl, by rw [he]; exact hroom.symm⟩ hne
      · rw [if_neg hcc]
        exact ⟨sub', hs', hroom, hphase⟩

theorem reachable_hubWF {s : Hub} (h : Reachable s) : HubWF s := by
  induction h with
  | init s hi => exact hubWF_init hi
  | step s s' l _ hstep ih => exact hubWF_step ih hstep

/-! ## Dispatcher lemmas -/

theorem attempted_eq_conns (reg : Registry) (msg : Message) (writeFails : ConnId → Bool) :
    (notifyClients reg msg writeFails).attempted = reg.conns msg.roomID := by
  unfold notifyClients Registry.conns
  cases h : Registry.lookup reg msg.roomID with
  | none => simp
  | some conns =>
    cases conns with
    | nil => simp
    | cons a l => simp

/-! ## Claim C2 -/

/-- C2: on a write failure during a publish, the dispatcher records the
failure in the log and triggers exactly that subscriber's cancellation
control; it never mutates the registry itself; the broadcast reaches every
registered connection regardless of which writes fail; and the publish
step is always enabled and surfaces nothing to the caller (the dispatch
outcome carries no error channel and `notifyClients` has no return
value). -/
theorem notifyClients_write_failure_isolation (reg : Registry) (msg : Message)
    (writeFails : ConnId → Bool) :
    (notifyClients reg msg writeFails).failed =
      ((notifyClients reg msg writeFails).attempted).filter writeFails ∧
    (notifyClients reg msg writeFails).logs =
      (notifyClients reg msg writeFails).failed.length ∧
    (notifyClients reg msg writeFails).attempted =
      (notifyClients reg msg fun _ => false).attempted ∧
    (∀ s : Hub, Step s (.publishL msg writeFails)
      ⟨s.registry, cancelFailed s.subs (notifyClients s.registry msg writeFails).failed⟩) ∧
    (∀ s s' : Hub, Step s (.publishL msg writeFails) s' →
      s'.registry = s.registry ∧
      ∀ c, c ∈ (notifyClients s.registry msg writeFails).failed →
        lookupSub s'.subs c =
          (lookupSub s.subs c).map fun t => { t with cancelled := true }) := by
  refine ⟨?_, ?_, ?_, ?_, ?_⟩
  · unfold notifyClients
    cases h : Registry.lookup reg msg.roomID with
    | none => simp
    | some conns =>
      cases conns with
      | nil => simp
      | cons a l => simp
  · unfold notifyClients
    cases h : Registry.lookup reg msg.roomID with
    | none => simp
    | some conns =>
      cases conns with
      | nil => simp
      | cons a l => simp
  · rw [attempted_eq_conns, attempted_eq_conns]
  · intro s
    exact Step.publish s msg writeFails
  · intro s s' hstep
    cases hstep with
    | publish msg writeFails =>
      refine ⟨rfl, ?_⟩
      intro c hm
      rw [lookupSub_cancelFailed]
      cases hls : lookupSub s.subs c with
      | none => rfl
      | some t => simp [hm]

/-- Witness for C2 at `hub1` (one active subscriber, connection 0 in room
`r1`) and an always-failing transport: the failed set is the whole
attempted set, the publish step keeps the registry untouched, and
connection 0's cancellation control ends up triggered. -/
theorem notifyClients_write_failure_isolation_witness :
    (notifyClients hub1.registry msgR1 (fun _ => true)).failed =
      ((notifyClients hub1.registry msgR1 (fun _ => true)).attempted).filter
        (fun _ => true) ∧
    (⟨hub1.registry,
        cancelFailed hub1.subs
          (notifyClients hub1.registry msgR1 (fun _ => true)).failed⟩ : Hub).registry =
      hub1.registry ∧
    lookupSub
        (cancelFailed hub1.subs
          (notifyClients hub1.registry msgR1 (fun _ => true)).failed) 0 =
      (lookupSub hub1.subs 0).map fun t => { t with cancelled := true } := by
  have h := notifyClients_write_failure_isolation hub1.registry msgR1 (fun _ => true)
  have hs := h.2.2.2.2 hub1
    ⟨hub1.registry,
      cancelFailed hub1.subs (notifyClients hub1.registry msgR1 (fun _ => true)).failed⟩
    (h.2.2.2.1 hub1)
  exact ⟨h.1, hs.1, hs.2 0 (by decide)⟩

/-! ## Claim C4 -/

/-- Counterexample to C4 as stated: in the reachable state `hub2`,
connection 0's cancellation control has fired, yet — its `handleSubscribe`
goroutine having not yet executed the teardown critical section — it is
still in room `r1`'s registry set and a publish for `r1` still attempts
delivery to it. -/
theorem cancelImpliesAbsent_false : ¬ CancelImpliesAbsent := by
  intro h
  have h0 : InitHub hub0 := ⟨rfl, by decide, by decide⟩
  have hr2 : Reachable hub2 :=
    Reachable.step hub1 hub2 (.cancelL 0)
      (Reachable.step hub0 hub1 (.registerL 0) (Reachable.init hub0 h0)
        (Step.register hub0 0 ⟨"r1", .connecting, false⟩ (by decide) rfl))
      (Step.cancelFire hub1 0 ⟨"r1", .active, false⟩ (by decide))
  have h2 := h hub2 hr2 0 ⟨"r1", .active, true⟩ (by decide) rfl
  exact h2.2 (by decide)

/-- C4 amended: after a cancelled subscriber's lifecycle completes its
deregistration (its goroutine has run the teardown critical section, phase
`closed`), it is absent from every room's registry set and no subsequent
publish attempts delivery to it. -/
theorem closed_subscriber_absent {s : Hub} (hr : Reachable s) {c : ConnId}
    {sub : SubState} (hc : lookupSub s.subs c = some sub) (hp : sub.phase = .closed) :
    (∀ r, c ∉ s.registry.conns r) ∧
    ∀ msg writeFails, c ∉ (notifyClients s.registry msg writeFails).attempted := by
  have hwf := reachable_hubWF hr
  have habs : ∀ r, c ∉ s.registry.conns r := by
    intro r hmem
    obtain ⟨sub', hs', _, hphase⟩ := hwf.2.2 c r hmem
    rw [hc] at hs'
    injection hs' with he
    rw [← he, hp] at hphase
    exact absurd hphase (by simp)
  refine ⟨habs, ?_⟩
  intro msg writeFails hmem
  rw [attempted_eq_conns] at hmem
  exact habs msg.roomID hmem

/-- Witness for the amended C4: in the reachable state `hub3` (connection
0 registered, cancelled, then deregistered), connection 0 is out of room
`r1`'s set and a publish of `msgR1` does not attempt delivery to it. -/
theorem closed_subscriber_absent_witness :
    0 ∉ hub3.registry.conns "r1" ∧
    0 ∉ (notifyClients hub3.registry msgR1 (fun _ => false)).attempted := by
  have h0 : InitHub hub0 := ⟨rfl, by decide, by decide⟩
  have hr3 : Reachable hub3 :=
    Reachable.step hub2 hub3 (.deregisterL 0)
      (Reachable.step hub1 hub2 (.cancelL 0)
        (Reachable.step hub0 hub1 (.registerL 0) (Reachable.init hub0 h0)
          (Step.register hub0 0 ⟨"r1", .connecting, false⟩ (by decide) rfl))
        (Step.cancelFire hub1 0 ⟨"r1", .active, false⟩ (by decide)))
      (Step.deregister hub2 0 ⟨"r1", .active, true⟩ (by decide) rfl rfl)
  have h := closed_subscriber_absent hr3
    (show lookupSub hub3.subs 0 = some ⟨"r1", .closed, true⟩ by decide) rfl
  exact ⟨h.1 "r1", h.2 msgR1 (fun _ => false)⟩

/-! ## Claim C5 -/

theorem Registry.mem_key_eq_of_lookup {reg : Registry}
    (hnd : (reg.map Prod.fst).Nodup) {room : RoomId} {l : List ConnId}
    (h : Registry.lookup reg room = some l) :
    ∀ p ∈ reg, p.1 = room → p.2 = l := by
  induction reg with
  | nil => intro p hp; simp at hp
  | cons q rest ih =>
    obtain ⟨a, b⟩ := q
    intro p hp hkey
    rcases List.mem_cons.mp hp with rfl | hp
    · dsimp at hkey
      subst hkey
      simp [Registry.lookup] at h
      exact h
    · by_cases ha : a = room
      · subst ha
        exfalso
        have : a ∈ rest.map Prod.fst := hkey ▸ List.mem_map_of_mem Prod.fst hp
        exact (List.nodup_cons.mp hnd).1 this
      · simp [Registry.lookup, ha] at h
        exact ih (List.nodup_cons.mp hnd).2 h p hp hkey

/-- C5: `deregister` removes the connection from the room's set when
present, and is a harmless no-op when the connection is absent or the room
has no entry; applying it twice equals applying it once (idempotence, the
case of a dispatch-triggered removal racing lifecycle teardown — the lock
serializes the two calls and the second finds the handle already gone). -/
theorem deregister_idempotent (reg : Registry) (room : RoomId) (c : ConnId)
    (hwf : reg.WF) :
    (∀ conns, Registry.lookup reg room = some conns →
      Registry.lookup (reg.deregister room c) room = some (conns.erase c) ∧
        c ∉ conns.erase c) ∧
    (Registry.lookup reg room = none → reg.deregister room c = reg) ∧
    (∀ conns, Registry.lookup reg room = some conns → c ∉ conns →
      reg.deregister room c = reg) ∧
    (reg.deregister room c).deregister room c = reg.deregister room c := by
  refine ⟨?_, ?_, ?_, ?_⟩
  · intro conns h
    constructor
    · rw [Registry.lookup_deregister_self, h]
      rfl
    · intro hmem
      rw [(hwf.lookup_nodup h).mem_erase_iff] at hmem
      exact hmem.1 rfl
  · intro h
    unfold Registry.deregister
    refine (List.map_congr_left ?_).trans (List.map_id reg)
    intro p hp
    have hne : p.1 ≠ room := by
      intro he
      exact (Registry.lookup_eq_none_iff reg room).mp h
        (he ▸ List.mem_map_of_mem Prod.fst hp)
    simp [hne]
  · intro conns h hc
    unfold Registry.deregister
    refine (List.map_congr_left ?_).trans (List.map_id reg)
    intro p hp
    by_cases hkey : p.1 = room
    · have hval : p.2 = conns := Registry.mem_key_eq_of_lookup hwf.1 h p hp hkey
      have h2 : p.2.erase c = p.2 := by
        rw [hval]; exact List.erase_of_not_mem hc
      rw [if_pos hkey, h2]
      exact Prod.mk.eta
    · simp [hkey]
  · unfold Registry.deregister
    rw [List.map_map]
    apply List.map_congr_left
    intro p hp
    by_cases hkey : p.1 = room
    · have hnd : p.2.Nodup := hwf.2 p hp
      have : c ∉ p.2.erase c := by
        intro hmem
        rw [hnd.mem_erase_iff] at hmem
        exact hmem.1 rfl
      simp [hkey, List.erase_of_not_mem this]
    · simp [hkey]

/-- Witness for C5 on `r1 ↦ {1, 2}`: deregistering 2 leaves `{1}`,
deregistering the absent 3 changes nothing, deregistering 2 from the
unknown room `r9` changes nothing, and deregistering 2 twice equals
deregistering it once. -/
theorem deregister_idempotent_witness :
    Registry.lookup (Registry.deregister [("r1", [1, 2])] "r1" 2) "r1" = some [1] ∧
    Registry.deregister [("r1", [1, 2])] "r1" 3 = [("r1", [1, 2])] ∧
    Registry.deregister [("r1", [1, 2])] "r9" 2 = [("r1", [1, 2])] ∧
    Registry.deregister (Registry.deregister [("r1", [1, 2])] "r1" 2) "r1" 2 =
      Registry.deregister [("r1", [1, 2])] "r1" 2 := by
  have hwf : Registry.WF [("r1", [1, 2])] := ⟨by decide, by decide⟩
  refine ⟨?_, ?_, ?_, ?_⟩
  · exact ((deregister_idempotent [("r1", [1, 2])] "r1" 2 hwf).1 [1, 2] rfl).1
  · exact (deregister_idempotent [("r1", [1, 2])] "r1" 3 hwf).2.2.1 [1, 2] rfl (by decide)
  · exact (deregister_idempotent [("r1", [1, 2])] "r9" 2 hwf).2.1 rfl
  · exact (deregister_idempotent [("r1", [1, 2])] "r1" 2 hwf).2.2.2

/-! ## Claim C6 -/

/-- C6: a room's registry entry is created lazily by the first
registration for that room; neither `register` nor `deregister` ever
removes an existing room entry, and no atomic step of the hub does either;
after the last subscriber is deregistered the entry remains as an empty
set. -/
theorem room_entry_lazy_never_deleted (reg : Registry) (room : RoomId) (c : ConnId) :
    (Registry.lookup reg room = none →
      Registry.lookup (reg.register room c) room = some [c]) ∧
    (∀ r, (Registry.lookup (reg.register room c) r).isSome ↔
      ((Registry.lookup reg r).isSome ∨ r = room)) ∧
    (∀ r, (Registry.lookup (reg.deregister room c) r).isSome ↔
      (Registry.lookup reg r).isSome) ∧
    (∀ s l s', Step s l s' → ∀ r,
      (Registry.lookup s.registry r).isSome → (Registry.lookup s'.registry r).isSome) ∧
    (Registry.lookup reg room = some [c] →
      Registry.lookup (reg.deregister room c) room = some []) := by
  have hdereg : ∀ (reg' : Registry) (room' : RoomId) (c' : ConnId) (r : RoomId),
      (Registry.lookup (reg'.deregister room' c') r).isSome ↔
        (Registry.lookup reg' r).isSome := by
    intro reg' room' c' r
    by_cases hr : r = room'
    · subst hr
      rw [Registry.lookup_deregister_self]
      cases Registry.lookup reg' r <;> simp
    · rw [Registry.lookup_deregister_ne reg' c' hr]
  have hreg : ∀ (reg' : Registry) (room' : RoomId) (c' : ConnId) (r : RoomId),
      (Registry.lookup (reg'.register room' c') r).isSome ↔
        ((Registry.lookup reg' r).isSome ∨ r = room') := by
    intro reg' room' c' r
    by_cases hr : r = room'
    · subst hr
      cases hl : Registry.lookup reg' r with
      | none => rw [Registry.lookup_register_none c' hl]; simp
      | some l => rw [Registry.lookup_register_some c' hl]; simp
    · rw [Registry.lookup_register_ne reg' c' hr]
      simp [hr]
  refine ⟨fun h => Registry.lookup_register_none c h, hreg reg room c, hdereg reg room c,
    ?_, ?_⟩
  · intro s l s' hstep r h
    cases hstep with
    | register c0 sub hc hp =>
      exact (hreg s.registry sub.room c0 r).mpr (Or.inl h)
    | cancelFire c0 sub hc => exact h
    | publish msg writeFails => exact h
    | deregister c0 sub hc hp hx =>
      exact (hdereg s.registry sub.room c0 r).mpr h
  · intro h
    rw [Registry.lookup_deregister_self, h]
    simp

/-- Witness for C6: registering 0 for the unknown room `r1` creates the
entry `{0}`; the publish step from `hub1` preserves the presence of
`r1`'s entry; and deregistering the only subscriber of `r1 ↦ {0}` leaves
the entry present as the empty set. -/
theorem room_entry_lazy_never_deleted_witness :
    Registry.lookup (Registry.register [] "r1" 0) "r1" = some [0] ∧
    (Registry.lookup
      (⟨hub1.registry,
        cancelFailed hub1.subs
          (notifyClients hub1.registry msgR1 (fun _ => false)).failed⟩ : Hub).registry
      "r1").isSome = true ∧
    Registry.lookup (Registry.deregister [("r1", [0])] "r1" 0) "r1" = some [] := by
  refine ⟨?_, ?_, ?_⟩
  · exact (room_entry_lazy_never_deleted [] "r1" 0).1 rfl
  · exact (room_entry_lazy_never_deleted [] "r1" 0).2.2.2.1 hub1 (.publishL msgR1 (fun _ => false))
      ⟨hub1.registry,
        cancelFailed hub1.subs
          (notifyClients hub1.registry msgR1 (fun _ => false)).failed⟩
      (Step.publish hub1 msgR1 (fun _ => false)) "r1" (by decide)
  · exact (room_entry_lazy_never_deleted [("r1", [0])] "r1" 0).2.2.2.2 rfl

/-! ## Claim C7 -/

/-- C7: when the subscribe request's room id fails UUID validation, or the
room lookup returns no row or a store error, `handleSubscribe` returns
before the upgrade: no connection upgrade is attempted, nothing is
registered, and the registry is unchanged. -/
theorem subscribe_invalid_room_no_side_effect (reg : Registry) (rawRoomID : String)
    (parsed : Option UUID) (store : UUID → GetRoomResult) (upgradeOk : Bool)
    (c : ConnId)
    (hfail : parsed = none ∨ ∃ roomID, parsed = some roomID ∧
      (store roomID = .noRows ∨ store roomID = .otherErr)) :
    (handleSubscribe reg rawRoomID parsed store upgradeOk c).upgradeAttempted = false ∧
    (handleSubscribe reg rawRoomID parsed store upgradeOk c).registered = false ∧
    (handleSubscribe reg rawRoomID parsed store upgradeOk c).registry = reg := by
  rcases hfail with h | ⟨roomID, hp, hs⟩
  · subst h
    exact ⟨rfl, rfl, rfl⟩
  · subst hp
    rcases hs with hs | hs <;> simp [handleSubscribe, readRoom, hs]

/-- Witness for C7: a malformed room id and a valid-but-unknown room id
both leave the registry `r1 ↦ {5}` untouched, with no upgrade attempt and
no registration. -/
theorem subscribe_invalid_room_no_side_effect_witness :
    (handleSubscribe [("r1", [5])] "bad" none (fun _ => .noRows) true 7).upgradeAttempted
        = false ∧
    (handleSubscribe [("r1", [5])] "bad" none (fun _ => .noRows) true 7).registered
        = false ∧
    (handleSubscribe [("r1", [5])] "u2" (some "u2") (fun _ => .noRows) true 7).registry
        = [("r1", [5])] := by
  refine ⟨?_, ?_, ?_⟩
  · exact (subscribe_invalid_room_no_side_effect [("r1", [5])] "bad" none
      (fun _ => .noRows) true 7 (Or.inl rfl)).1
  · exact (subscribe_invalid_room_no_side_effect [("r1", [5])] "bad" none
      (fun _ => .noRows) true 7 (Or.inl rfl)).2.1
  · exact (subscribe_invalid_room_no_side_effect [("r1", [5])] "u2" (some "u2")
      (fun _ => .noRows) true 7 (Or.inr ⟨"u2", rfl, Or.inl rfl⟩)).2.2

/-! ## Claim C8 -/

/-- C8: each of the four event-producing handlers is fire-and-forget —
whenever the handler's trace reaches a publish at all, the trace consists
of the handler's own HTTP success response followed by the *spawn* of the
asynchronous `notifyClients` call (so the response to the producer's
caller never waits on subscriber delivery). -/
theorem producers_fire_and_forget :
    (∀ rawRoomID parsedRoom storeRoom body insertRes m,
      HAction.spawnNotify m ∈
        handleCreateRoomMessage rawRoomID parsedRoom storeRoom body insertRes →
      RespondsThenSpawns
        (handleCreateRoomMessage rawRoomID parsedRoom storeRoom body insertRes) m) ∧
    (∀ rawRoomID parsedRoom storeRoom rawMessageID parsedMessage storeMessage reactRes m,
      HAction.spawnNotify m ∈
        handleAddReactToMessage rawRoomID parsedRoom storeRoom rawMessageID
          parsedMessage storeMessage reactRes →
      RespondsThenSpawns
        (handleAddReactToMessage rawRoomID parsedRoom storeRoom rawMessageID
          parsedMessage storeMessage reactRes) m) ∧
    (∀ rawRoomID parsedRoom storeRoom rawMessageID parsedMessage storeMessage reactRes m,
      HAction.spawnNotify m ∈
        handleRemoveReactFromMessage rawRoomID parsedRoom storeRoom rawMessageID
          parsedMessage storeMessage reactRes →
      RespondsThenSpawns
        (handleRemoveReactFromMessage rawRoomID parsedRoom storeRoom rawMessageID
          parsedMessage storeMessage reactRes) m) ∧
    (∀ rawRoomID parsedRoom storeRoom rawMessageID parsedMessage storeMessage markRes m,
      HAction.spawnNotify m ∈
        handleMarkMessageAsAnswered rawRoomID parsedRoom storeRoom rawMessageID
          parsedMessage storeMessage markRes →
      RespondsThenSpawns
        (handleMarkMessageAsAnswered rawRoomID parsedRoom storeRoom rawMessageID
          parsedMessage storeMessage markRes) m) := by
  refine ⟨?_, ?_, ?_, ?_⟩
  · intro rawRoomID parsedRoom storeRoom body insertRes m hm
    cases parsedRoom with
    | none => simp [handleCreateRoomMessage, readRoom] at hm
    | some roomID =>
      cases hsr : storeRoom roomID with
      | noRows => simp [handleCreateRoomMessage, readRoom, hsr] at hm
      | otherErr => simp [handleCreateRoomMessage, readRoom, hsr] at hm
      | found room =>
        cases body with
        | none => simp [handleCreateRoomMessage, readRoom, hsr] at hm
        | some message =>
          cases insertRes with
          | error e => simp [handleCreateRoomMessage, readRoom, hsr] at hm
          | ok messageID =>
            simp only [handleCreateRoomMessage, readRoom, hsr, List.nil_append,
              List.mem_cons, List.not_mem_nil, or_false] at hm
            rcases hm with hm | hm
            · exact absurd hm (by simp)
            · rw [HAction.spawnNotify.injEq] at hm
              subst hm
              exact ⟨.respondJSON (.obj [("id", .str messageID)]), trivial,
                by simp [handleCreateRoomMessage, readRoom, hsr]⟩
  · intro rawRoomID parsedRoom storeRoom rawMessageID parsedMessage storeMessage
      reactRes m hm
    cases parsedRoom with
    | none => simp [handleAddReactToMessage, readRoom] at hm
    | some roomID =>
      cases hsr : storeRoom roomID with
      | noRows => simp [handleAddReactToMessage, readRoom, hsr] at hm
      | otherErr => simp [handleAddReactToMessage, readRoom, hsr] at hm
      | found room =>
        cases parsedMessage with
        | none => simp [handleAddReactToMessage, readRoom, readMessage, hsr] at hm
        | some messageID =>
          cases hsm : storeMessage messageID with
          | noRows => simp [handleAddReactToMessage, readRoom, readMessage, hsr, hsm] at hm
          | otherErr => simp [handleAddReactToMessage, readRoom, readMessage, hsr, hsm] at hm
          | found message =>
            cases reactRes with
            | error e =>
              simp [handleAddReactToMessage, readRoom, readMessage, hsr, hsm] at hm
            | ok count =>
              simp only [handleAddReactToMessage, readRoom, readMessage, hsr, hsm,
                List.nil_append, List.mem_cons, List.not_mem_nil, or_false] at hm
              rcases hm with hm | hm
              · exact absurd hm (by simp)
              · rw [HAction.spawnNotify.injEq] at hm
                subst hm
                exact ⟨.respondJSON (.obj [("count", .int count)]), trivial,
                  by simp [handleAddReactToMessage, readRoom, readMessage, hsr, hsm]⟩
  · intro rawRoomID parsedRoom storeRoom rawMessageID parsedMessage storeMessage
      reactRes m hm
    cases parsedRoom with
    | none => simp [handleRemoveReactFromMessage, readRoom] at hm
    | some roomID =>
      cases hsr : storeRoom roomID with
      | noRows => simp [handleRemoveReactFromMessage, readRoom, hsr] at hm
      | otherErr => simp [handleRemoveReactFromMessage, readRoom, hsr] at hm
      | found room =>
        cases parsedMessage with
        | none => simp [handleRemoveReactFromMessage, readRoom, readMessage, hsr] at hm
        | some messageID =>
          cases hsm : storeMessage messageID with
          | noRows =>
            simp [handleRemoveReactFromMessage, readRoom, readMessage, hsr, hsm] at hm
          | otherErr =>
            simp [handleRemoveReactFromMessage, readRoom, readMessage, hsr, hsm] at hm
          | found message =>
            cases reactRes with
            | error e =>
              simp [handleRemoveReactFromMessage, readRoom, readMessage, hsr, hsm] at hm
            | ok count =>
              simp only [handleRemoveReactFromMessage, readRoom, readMessage, hsr, hsm,
                List.nil_append, List.mem_cons, List.not_mem_nil, or_false] at hm
              rcases hm with hm | hm
              · exact absurd hm (by simp)
              · rw [HAction.spawnNotify.injEq] at hm
                subst hm
                exact ⟨.respondJSON (.obj [("count", .int count)]), trivial,
                  by simp [handleRemoveReactFromMessage, readRoom, readMessage, hsr, hsm]⟩
  · intro rawRoomID parsedRoom storeRoom rawMessageID parsedMessage storeMessage
      markRes m hm
    cases parsedRoom with
    | none => simp [handleMarkMessageAsAnswered, readRoom] at hm
    | some roomID =>
      cases hsr : storeRoom roomID with
      | noRows => simp [handleMarkMessageAsAnswered, readRoom, hsr] at hm
      | otherErr => simp [handleMarkMessageAsAnswered, readRoom, hsr] at hm
      | found room =>
        cases parsedMessage with
        | none => simp [handleMarkMessageAsAnswered, readRoom, readMessage, hsr] at hm
        | some messageID =>
          cases hsm : storeMessage messageID with
          | noRows =>
            simp [handleMarkMessageAsAnswered, readRoom, readMessage, hsr, hsm] at hm
          | otherErr =>
            simp [handleMarkMessageAsAnswered, readRoom, readMessage, hsr, hsm] at hm
          | found message =>
            cases markRes with
            | error e =>
              simp [handleMarkMessageAsAnswered, readRoom, readMessage, hsr, hsm] at hm
            | ok u =>
              simp only [handleMarkMessageAsAnswered, readRoom, readMessage, hsr, hsm,
                List.nil_append, List.mem_cons, List.not_mem_nil, or_false] at hm
              rcases hm with hm | hm
              · exact absurd hm (by simp)
              · rw [HAction.spawnNotify.injEq] at hm
                subst hm
                exact ⟨.writeHeader 200, trivial,
                  by simp [handleMarkMessageAsAnswered, readRoom, readMessage, hsr, hsm]⟩

/-- Witness for C8: concrete success runs of all four producers respond
first and then spawn the publish. -/
theorem producers_fire_and_forget_witness :
    RespondsThenSpawns
      (handleCreateRoomMessage "r" (some "r") (fun _ => .found ⟨"r", "t"⟩)
        (some "hi") (.ok "m1"))
      ⟨MessageCreated, .created ⟨"m1", "hi"⟩, "r"⟩ ∧
    RespondsThenSpawns
      (handleAddReactToMessage "r" (some "r") (fun _ => .found ⟨"r", "t"⟩) "m1"
        (some "m1") (fun _ => .found ⟨"m1", "r", "hi", 0, false⟩) (.ok 3))
      ⟨MessageRactionIncreased, .reactionIncreased ⟨"m1", 3⟩, "r"⟩ ∧
    RespondsThenSpawns
      (handleRemoveReactFromMessage "r" (some "r") (fun _ => .found ⟨"r", "t"⟩) "m1"
        (some "m1") (fun _ => .found ⟨"m1", "r", "hi", 0, false⟩) (.ok 2))
      ⟨MessageRactionDecreased, .reactionDecreased ⟨"m1", 2⟩, "r"⟩ ∧
    RespondsThenSpawns
      (handleMarkMessageAsAnswered "r" (some "r") (fun _ => .found ⟨"r", "t"⟩) "m1"
        (some "m1") (fun _ => .found ⟨"m1", "r", "hi", 0, false⟩) (.ok ()))
      ⟨MessageAnswered, .answered ⟨"m1"⟩, "r"⟩ := by
  have h := producers_fire_and_forget
  refine ⟨?_, ?_, ?_, ?_⟩
  · exact h.1 "r" (some "r") (fun _ => .found ⟨"r", "t"⟩) (some "hi") (.ok "m1") _
      (by simp [handleCreateRoomMessage, readRoom])
  · exact h.2.1 "r" (some "r") (fun _ => .found ⟨"r", "t"⟩) "m1" (some "m1")
      (fun _ => .found ⟨"m1", "r", "hi", 0, false⟩) (.ok 3) _
      (by simp [handleAddReactToMessage, readRoom, readMessage])
  · exact h.2.2.1 "r" (some "r") (fun _ => .found ⟨"r", "t"⟩) "m1" (some "m1")
      (fun _ => .found ⟨"m1", "r", "hi", 0, false⟩) (.ok 2) _
      (by simp [handleRemoveReactFromMessage, readRoom, readMessage])
  · exact h.2.2.2 "r" (some "r") (fun _ => .found ⟨"r", "t"⟩) "m1" (some "m1")
      (fun _ => .found ⟨"m1", "r", "hi", 0, false⟩) (.ok ()) _
      (by simp [handleMarkMessageAsAnswered, readRoom, readMessage])

/-! ## Claim C3 -/

/-- C3: every event a producer hands to the dispatcher serializes (via
`conn.WriteJSON`, i.e. `encoding/json` on `Message`) to the envelope
`{kind, value}` — the room id is never part of the wire form — where
`kind` is one of the four event strings and `value` has that kind's fixed
payload shape, with `count` a 64-bit signed integer (the `int64` the store
returned). -/
theorem wire_envelope_shape :
    (∀ rawRoomID parsedRoom storeRoom body insertRes m,
      HAction.spawnNotify m ∈
        handleCreateRoomMessage rawRoomID parsedRoom storeRoom body insertRes →
      WireOK m) ∧
    (∀ rawRoomID parsedRoom storeRoom rawMessageID parsedMessage storeMessage
        (reactRes : Except Unit Int) m,
      (∀ n, reactRes = .ok n → Int64Range n) →
      HAction.spawnNotify m ∈
        handleAddReactToMessage rawRoomID parsedRoom storeRoom rawMessageID
          parsedMessage storeMessage reactRes →
      WireOK m) ∧
    (∀ rawRoomID parsedRoom storeRoom rawMessageID parsedMessage storeMessage
        (reactRes : Except Unit Int) m,
      (∀ n, reactRes = .ok n → Int64Range n) →
      HAction.spawnNotify m ∈
        handleRemoveReactFromMessage rawRoomID parsedRoom storeRoom rawMessageID
          parsedMessage storeMessage reactRes →
      WireOK m) ∧
    (∀ rawRoomID parsedRoom storeRoom rawMessageID parsedMessage storeMessage markRes m,
      HAction.spawnNotify m ∈
        handleMarkMessageAsAnswered rawRoomID parsedRoom storeRoom rawMessageID
          parsedMessage storeMessage markRes →
      WireOK m) := by
  refine ⟨?_, ?_, ?_, ?_⟩
  · intro rawRoomID parsedRoom storeRoom body insertRes m hm
    cases parsedRoom with
    | none => simp [handleCreateRoomMessage, readRoom] at hm
    | some roomID =>
      cases hsr : storeRoom roomID with
      | noRows => simp [handleCreateRoomMessage, readRoom, hsr] at hm
      | otherErr => simp [handleCreateRoomMessage, readRoom, hsr] at hm
      | found room =>
        cases body with
        | none => simp [handleCreateRoomMessage, readRoom, hsr] at hm
        | some message =>
          cases insertRes with
          | error e => simp [handleCreateRoomMessage, readRoom, hsr] at hm
          | ok messageID =>
            simp only [handleCreateRoomMessage, readRoom, hsr, List.nil_append,
              List.mem_cons, List.not_mem_nil, or_false] at hm
            rcases hm with hm | hm
            · exact absurd hm (by simp)
            · rw [HAction.spawnNotify.injEq] at hm
              subst hm
              exact ⟨fun r' => rfl, Or.inl ⟨rfl, messageID, message, rfl⟩⟩
  · intro rawRoomID parsedRoom storeRoom rawMessageID parsedMessage storeMessage
      reactRes m hint hm
    cases parsedRoom with
    | none => simp [handleAddReactToMessage, readRoom] at hm
    | some roomID =>
      cases hsr : storeRoom roomID with
      | noRows => simp [handleAddReactToMessage, readRoom, hsr] at hm
      | otherErr => simp [handleAddReactToMessage, readRoom, hsr] at hm
      | found room =>
        cases parsedMessage with
        | none => simp [handleAddReactToMessage, readRoom, readMessage, hsr] at hm
        | some messageID =>
          cases hsm : storeMessage messageID with
          | noRows => simp [handleAddReactToMessage, readRoom, readMessage, hsr, hsm] at hm
          | otherErr => simp [handleAddReactToMessage, readRoom, readMessage, hsr, hsm] at hm
          | found message =>
            cases reactRes with
            | error e =>
              simp [handleAddReactToMessage, readRoom, readMessage, hsr, hsm] at hm
            | ok count =>
              simp only [handleAddReactToMessage, readRoom, readMessage, hsr, hsm,
                List.nil_append, List.mem_cons, List.not_mem_nil, or_false] at hm
              rcases hm with hm | hm
              · exact absurd hm (by simp)
              · rw [HAction.spawnNotify.injEq] at hm
                subst hm
                exact ⟨fun r' => rfl,
                  Or.inr (Or.inl ⟨rfl, rawMessageID, count, hint count rfl, rfl⟩)⟩
  · intro rawRoomID parsedRoom storeRoom rawMessageID parsedMessage storeMessage
      reactRes m hint hm
    cases parsedRoom with
    | none => simp [handleRemoveReactFromMessage, readRoom] at hm
    | some roomID =>
      cases hsr : storeRoom roomID with
      | noRows => simp [handleRemoveReactFromMessage, readRoom, hsr] at hm
      | otherErr => simp [handleRemoveReactFromMessage, readRoom, hsr] at hm
      | found room =>
        cases parsedMessage with
        | none => simp [handleRemoveReactFromMessage, readRoom, readMessage, hsr] at hm
        | some messageID =>
          cases hsm : storeMessage messageID with
          | noRows =>
            simp [handleRemoveReactFromMessage, readRoom, readMessage, hsr, hsm] at hm
          | otherErr =>
            simp [handleRemoveReactFromMessage, readRoom, readMessage, hsr, hsm] at hm
          | found message =>
            cases reactRes with
            | error e =>
              simp [handleRemoveReactFromMessage, readRoom, readMessage, hsr, hsm] at hm
            | ok count =>
              simp only [handleRemoveReactFromMessage, readRoom, readMessage, hsr, hsm,
                List.nil_append, List.mem_cons, List.not_mem_nil, or_false] at hm
              rcases hm with hm | hm
              · exact absurd hm (by simp)
              · rw [HAction.spawnNotify.injEq] at hm
                subst hm
                exact ⟨fun r' => rfl,
                  Or.inr (Or.inr (Or.inl ⟨rfl, rawMessageID, count, hint count rfl, rfl⟩))⟩
  · intro rawRoomID parsedRoom storeRoom rawMessageID parsedMessage storeMessage
      markRes m hm
    cases parsedRoom with
    | none => simp [handleMarkMessageAsAnswered, readRoom] at hm
    | some roomID =>
      cases hsr : storeRoom roomID with
      | noRows => simp [handleMarkMessageAsAnswered, readRoom, hsr] at hm
      | otherErr => simp [handleMarkMessageAsAnswered, readRoom, hsr] at hm
      | found room =>
        cases parsedMessage with
        | none => simp [handleMarkMessageAsAnswered, readRoom, readMessage, hsr] at hm
        | some messageID =>
          cases hsm : storeMessage messageID with
          | noRows =>
            simp [handleMarkMessageAsAnswered, readRoom, readMessage, hsr, hsm] at hm
          | otherErr =>
            simp [handleMarkMessageAsAnswered, readRoom, readMessage, hsr, hsm] at hm
          | found message =>
            cases markRes with
            | error e =>
              simp [handleMarkMessageAsAnswered, readRoom, readMessage, hsr, hsm] at hm
            | ok u =>
              simp only [handleMarkMessageAsAnswered, readRoom, readMessage, hsr, hsm,
                List.nil_append, List.mem_cons, List.not_mem_nil, or_false] at hm
              rcases hm with hm | hm
              · exact absurd hm (by simp)
              · rw [HAction.spawnNotify.injEq] at hm
                subst hm
                exact ⟨fun r' => rfl, Or.inr (Or.inr (Or.inr ⟨rfl, rawMessageID, rfl⟩))⟩

/-- Witness for C3: the four concrete producer events all satisfy the wire
contract. -/
theorem wire_envelope_shape_witness :
    WireOK ⟨MessageCreated, .created ⟨"m1", "hi"⟩, "r"⟩ ∧
    WireOK ⟨MessageRactionIncreased, .reactionIncreased ⟨"m1", 3⟩, "r"⟩ ∧
    WireOK ⟨MessageRactionDecreased, .reactionDecreased ⟨"m1", 2⟩, "r"⟩ ∧
    WireOK ⟨MessageAnswered, .answered ⟨"m1"⟩, "r"⟩ := by
  have h := wire_envelope_shape
  refine ⟨?_, ?_, ?_, ?_⟩
  · exact h.1 "r" (some "r") (fun _ => .found ⟨"r", "t"⟩) (some "hi") (.ok "m1") _
      (by simp [handleCreateRoomMessage, readRoom])
  · exact h.2.1 "r" (some "r") (fun _ => .found ⟨"r", "t"⟩) "m1" (some "m1")
      (fun _ => .found ⟨"m1", "r", "hi", 0, false⟩) (.ok 3) _
      (by intro n hn; injection hn with hn; subst hn; decide)
      (by simp [handleAddReactToMessage, readRoom, readMessage])
  · exact h.2.2.1 "r" (some "r") (fun _ => .found ⟨"r", "t"⟩) "m1" (some "m1")
      (fun _ => .found ⟨"m1", "r", "hi", 0, false⟩) (.ok 2) _
      (by intro n hn; injection hn with hn; subst hn; decide)
      (by simp [handleRemoveReactFromMessage, readRoom, readMessage])
  · exact h.2.2.2 "r" (some "r") (fun _ => .found ⟨"r", "t"⟩) "m1" (some "m1")
      (fun _ => .found ⟨"m1", "r", "hi", 0, false⟩) (.ok ()) _
      (by simp [handleMarkMessageAsAnswered, readRoom, readMessage])

/-! ## Claim C9 -/

/-- C9: when the store returns a `nil` result set, `handleGetRooms` and
`handleGetRoomMessages` respond with the serialization of the empty list —
the JSON array `[]` — rather than JSON `null`. -/
theorem nil_rows_serialize_empty_array (rawRoomID : String) (roomID : UUID)
    (storeRoom : UUID → GetRoomResult) (room : Room)
    (hfound : storeRoom roomID = .found room) :
    handleGetRooms (.ok none) = [.respondJSON (.arr [])] ∧
    handleGetRoomMessages rawRoomID (some roomID) storeRoom (.ok none) =
      [.respondJSON (.arr [])] := by
  constructor
  · rfl
  · simp [handleGetRoomMessages, readRoom, hfound, marshalMessageSlice]

/-- Witness for C9 with a concrete room store. -/
theorem nil_rows_serialize_empty_array_witness :
    handleGetRooms (.ok none) = [.respondJSON (.arr [])] ∧
    handleGetRoomMessages "r" (some "r") (fun _ => .found ⟨"r", "t"⟩) (.ok none) =
      [.respondJSON (.arr [])] :=
  nil_rows_serialize_empty_array "r" "r" (fun _ => .found ⟨"r", "t"⟩) ⟨"r", "t"⟩ rfl

/-! ## Claim C10 -/

/-- C10: `sendJSON` silently discards `json.Marshal` errors — for every
marshal outcome it sets the Content-Type header to `application/json` and
writes whatever bytes came back (none on error), never signalling failure
to the HTTP client or the caller (the trace contains no error action and
the implicit status stays 200). -/
theorem sendJSON_discards_marshal_errors :
    (∀ e, sendJSON (.error e) =
      [.setHeader "Content-Type" "application/json", .writeBody []]) ∧
    (∀ d, sendJSON (.ok d) =
      [.setHeader "Content-Type" "application/json", .writeBody d]) :=
  ⟨fun _ => rfl, fun _ => rfl⟩
